import Mathlib

/-!
Verification of the identifier-indexed arena tree (`src/tree.rs`).

The Rust module `tree` is embedded shallowly:
* `Id` wraps a `u32`; the wrapped value is modelled as a `Nat` and every
  arithmetic step of the source reduces it modulo `2 ^ 32`, matching the
  wrapping behaviour of `u32` addition.
* `HashMap<Id, Node>` is modelled as an association list in which a fresh
  binding shadows any older binding of the same key; `mapLookup` returns the
  most recent binding, which is exactly the observable behaviour of
  `HashMap::get` after `HashMap::insert`.
* The factory closure `Box<dyn Fn(Id, &mut Node) -> Node>` mutates the parent
  in place and returns the new node; it is modelled as a pure function
  returning the pair (updated parent, new node).
* Traces of public operations (`Op`, `run`, `returnedIds`) model arbitrary
  sequences of `make_root` / `make_node` calls starting from `NodeTree::new`.
-/

set_option maxHeartbeats 1000000

namespace tree

/-- Node identifier: the source wraps a `u32` (`pub struct Id(pub u32)`).
The wrapped value is a `Nat`; the operations that increment it reduce
modulo `2 ^ 32`. -/
structure Id where
  val : Nat
deriving DecidableEq

/-- Sequential identifier authority (`struct IdGenerator { nextId: Id }`). -/
structure IdGenerator where
  nextId : Id
deriving DecidableEq

/-- `IdGenerator::new` starts the counter at zero. -/
def IdGenerator.new : IdGenerator := ⟨⟨0⟩⟩

/-- `IdGenerator::next`: returns the current counter and stores the counter
plus one; `u32` addition wraps modulo `2 ^ 32`. -/
def IdGenerator.next (g : IdGenerator) : Id × IdGenerator :=
  (g.nextId, ⟨⟨(g.nextId.val + 1) % 2 ^ 32⟩⟩)

/-- `struct ChildrenNode`: own id, parent id, ordered child list. -/
structure ChildrenNode where
  id : Id
  parent : Id
  children : List Id
deriving DecidableEq

/-- `ChildrenNode::new`: empty child list. -/
def ChildrenNode.new (id parent : Id) : ChildrenNode :=
  { id := id, parent := parent, children := [] }

/-- `struct LeftRightNode`: own id, parent id, optional left and right. -/
structure LeftRightNode where
  id : Id
  parent : Id
  left : Option Id
  right : Option Id
deriving DecidableEq

/-- `LeftRightNode::new`: both optional children absent. -/
def LeftRightNode.new (id parent : Id) : LeftRightNode :=
  { id := id, parent := parent, left := none, right := none }

/-- `enum Node`: the closed tagged union of the two node shapes. -/
inductive Node where
  | ChildrenNode : ChildrenNode → Node
  | LeftRightNode : LeftRightNode → Node
deriving DecidableEq

/-- The two concrete payload types a `Node` can be viewed as; this stands for
the type parameter `T` of the downcast helpers in the source (only these two
types can ever succeed as a downcast target of a variant payload). -/
inductive NodeVariant where
  | childrenV
  | leftRightV
deriving DecidableEq

/-- The Lean type denoted by a variant tag. -/
def NodeVariant.denote : NodeVariant → Type
  | childrenV => ChildrenNode
  | leftRightV => LeftRightNode

/-- `Node::unpack_inner::<T>`: downcast of a variant payload whose concrete
type is `S` to the requested type `T` (`Any::downcast_ref`): succeeds exactly
when the types agree. -/
def Node.unpack_inner : (T S : NodeVariant) → S.denote → Option T.denote
  | NodeVariant.childrenV, NodeVariant.childrenV, x => some x
  | NodeVariant.leftRightV, NodeVariant.leftRightV, x => some x
  | _, _, _ => none

/-- `Node::unpack_inner_mut::<T>` (`Any::downcast_mut`). -/
def Node.unpack_inner_mut : (T S : NodeVariant) → S.denote → Option T.denote
  | NodeVariant.childrenV, NodeVariant.childrenV, x => some x
  | NodeVariant.leftRightV, NodeVariant.leftRightV, x => some x
  | _, _, _ => none

/-- `Node::get_inner::<T>`: view a node as the payload of variant `T`. -/
def Node.get_inner (T : NodeVariant) : Node → Option T.denote
  | Node.ChildrenNode inner => Node.unpack_inner T NodeVariant.childrenV inner
  | Node.LeftRightNode inner => Node.unpack_inner T NodeVariant.leftRightV inner

/-- `Node::get_inner_mut::<T>`. -/
def Node.get_inner_mut (T : NodeVariant) : Node → Option T.denote
  | Node.ChildrenNode inner => Node.unpack_inner_mut T NodeVariant.childrenV inner
  | Node.LeftRightNode inner => Node.unpack_inner_mut T NodeVariant.leftRightV inner

/-- `enum Error { NotFound, Unknown }`. -/
inductive Error where
  | NotFound
  | Unknown
deriving DecidableEq

/-- Lookup in the association-list model of `HashMap<Id, Node>`: the most
recent binding of the key wins. -/
def mapLookup (k : Id) : List (Id × Node) → Option Node
  | [] => none
  | p :: rest => if p.1 = k then some p.2 else mapLookup k rest

/-- `HashMap::insert` in the association-list model: the new binding shadows
any older binding of the same key. -/
def mapInsert (k : Id) (v : Node) (m : List (Id × Node)) : List (Id × Node) :=
  (k, v) :: m

/-- `struct NodeTree { id_generator, node_map }`. -/
structure NodeTree where
  id_generator : IdGenerator
  node_map : List (Id × Node)

/-- `NodeTree::new`: fresh authority, empty map. -/
def NodeTree.new : NodeTree := ⟨IdGenerator.new, []⟩

/-- `NodeTree::make_root`: draw an identifier, insert a `ChildrenNode` whose
`id` and `parent` both equal it, return it. The return type carries no error:
the operation always succeeds. -/
def NodeTree.make_root (t : NodeTree) : Id × NodeTree :=
  let idp := t.id_generator.next
  (idp.1, ⟨idp.2, mapInsert idp.1 (Node.ChildrenNode (ChildrenNode.new idp.1 idp.1)) t.node_map⟩)

/-- `NodeTree::get_node`. -/
def NodeTree.get_node (t : NodeTree) (id : Id) : Option Node :=
  match mapLookup id t.node_map with
  | some node => some node
  | none => none

/-- `NodeTree::get_node_mut` (observably the same lookup as `get_node`). -/
def NodeTree.get_node_mut (t : NodeTree) (id : Id) : Option Node :=
  match mapLookup id t.node_map with
  | some node => some node
  | none => none

/-- `NodeTree::make_node`: the identifier is drawn before the parent lookup,
so a failed call still consumes it. On success the factory receives the fresh
identifier and the parent; its in-place mutation of the parent is the first
component of its result, the newly built node the second. The mutated parent
is stored back at `parent_id` and the new node is inserted at the fresh id. -/
def NodeTree.make_node (t : NodeTree) (parent_id : Id)
    (factory : Id → Node → Node × Node) : Except Error Id × NodeTree :=
  let idp := t.id_generator.next
  match t.get_node_mut parent_id with
  | some parent =>
      let fr := factory idp.1 parent
      (Except.ok idp.1, ⟨idp.2, mapInsert idp.1 fr.2 (mapInsert parent_id fr.1 t.node_map)⟩)
  | none => (Except.error Error.NotFound, ⟨idp.2, t.node_map⟩)

/-- One public mutating operation on the arena. -/
inductive Op where
  | makeRoot : Op
  | makeNode : Id → (Id → Node → Node × Node) → Op

/-- Run a sequence of public operations. -/
def run : NodeTree → List Op → NodeTree
  | t, [] => t
  | t, Op.makeRoot :: rest => run (t.make_root).2 rest
  | t, Op.makeNode pid f :: rest => run (t.make_node pid f).2 rest

/-- The identifiers returned to the caller along a sequence of operations
(`make_root` always returns one; `make_node` only when it succeeds). -/
def returnedIds : NodeTree → List Op → List Id
  | _, [] => []
  | t, Op.makeRoot :: rest => (t.make_root).1 :: returnedIds (t.make_root).2 rest
  | t, Op.makeNode pid f :: rest =>
      match (t.make_node pid f).1 with
      | Except.ok i => i :: returnedIds (t.make_node pid f).2 rest
      | Except.error _ => returnedIds (t.make_node pid f).2 rest

/-- The generator state after `n` draws. -/
def genAfter : IdGenerator → Nat → IdGenerator
  | g, 0 => g
  | g, n + 1 => genAfter g.next.2 n

/-- The identifiers produced by `n` successive draws from `g`. -/
def genIdsFrom : IdGenerator → Nat → List Id
  | _, 0 => []
  | g, n + 1 => g.next.1 :: genIdsFrom g.next.2 n

/-- All identifiers a node mentions: its `parent` and its child links. -/
def refIds : Node → List Id
  | Node.ChildrenNode c => c.parent :: c.children
  | Node.LeftRightNode l => l.parent :: (l.left.toList ++ l.right.toList)

/-- Referential integrity: every identifier mentioned by a stored node is
itself a key of the arena. -/
def Inv (t : NodeTree) : Prop :=
  ∀ k n, mapLookup k t.node_map = some n →
    ∀ r ∈ refIds n, ∃ m, mapLookup r t.node_map = some m

/-- A factory conforms to the construction convention when every identifier
mentioned by either of its outputs is one the parent already mentioned, the
fresh identifier, or the parent's own identifier. -/
def FactoryConf (pid : Id) (f : Id → Node → Node × Node) : Prop :=
  ∀ i p r, (r ∈ refIds (f i p).1 ∨ r ∈ refIds (f i p).2) →
    (r ∈ refIds p ∨ r = i ∨ r = pid)

/-- Conformity of one operation. -/
def OpConf : Op → Prop
  | Op.makeRoot => True
  | Op.makeNode pid f => FactoryConf pid f

/-- A factory that leaves the parent untouched and builds a fresh
self-parented `LeftRightNode`. -/
def dummyFactory : Id → Node → Node × Node :=
  fun i p => (p, Node.LeftRightNode (LeftRightNode.new i i))

/-- A factory that leaves the parent untouched and builds a fresh
self-parented `ChildrenNode`. -/
def goodFactory : Id → Node → Node × Node :=
  fun i p => (p, Node.ChildrenNode (ChildrenNode.new i i))

/-- The conventional factory of the source's test: append the fresh id to the
parent's `children` and build a `LeftRightNode` whose parent is the parent's
own id. -/
def apFactory : Id → Node → Node × Node :=
  fun i p =>
    match p with
    | Node.ChildrenNode c =>
        (Node.ChildrenNode ⟨c.id, c.parent, c.children ++ [i]⟩,
         Node.LeftRightNode (LeftRightNode.new i c.id))
    | Node.LeftRightNode _ => (p, Node.LeftRightNode (LeftRightNode.new i i))

/-- A factory that stores identifiers never issued by the arena. -/
def danglingFactory : Id → Node → Node × Node :=
  fun i p => (p, Node.LeftRightNode ⟨i, ⟨999⟩, some ⟨777⟩, none⟩)

/-- A factory whose new node carries an `id` field different from the key the
arena will store it under. -/
def badIdFactory : Id → Node → Node × Node :=
  fun _ p => (p, Node.ChildrenNode ⟨⟨42⟩, ⟨0⟩, []⟩)

/-- The root node created by the first `make_root` on a fresh arena. -/
def rootNode0 : Node := Node.ChildrenNode ⟨⟨0⟩, ⟨0⟩, []⟩

/-- A root creation followed by `2 ^ 32 - 1` failed child creations: every
failed call still consumes one identifier, so afterwards the `u32` counter
has wrapped back to zero. -/
def badTrace : List Op :=
  Op.makeRoot :: List.replicate (2 ^ 32 - 1) (Op.makeNode ⟨1⟩ dummyFactory)

/-- The arena right after the first `make_root` on a fresh arena. -/
def rootTree : NodeTree := ⟨⟨⟨1⟩⟩, [(⟨0⟩, rootNode0)]⟩

/-- A two-node arena used to instantiate frame theorems. -/
def sampleTree : NodeTree :=
  ⟨⟨⟨2⟩⟩, [(⟨0⟩, rootNode0), (⟨1⟩, Node.LeftRightNode ⟨⟨1⟩, ⟨0⟩, none, none⟩)]⟩

/-! ### Basic lemmas about the map model and the operations -/

theorem mapLookup_insert_self (k : Id) (v : Node) (m : List (Id × Node)) :
    mapLookup k (mapInsert k v m) = some v := by
  simp [mapInsert, mapLookup]

theorem mapLookup_insert_ne (k r : Id) (v : Node) (m : List (Id × Node))
    (h : k ≠ r) : mapLookup r (mapInsert k v m) = mapLookup r m := by
  simp [mapInsert, mapLookup, h]

theorem get_node_eq (t : NodeTree) (i : Id) :
    t.get_node i = mapLookup i t.node_map := by
  unfold NodeTree.get_node
  cases mapLookup i t.node_map <;> rfl

theorem get_node_mut_eq (t : NodeTree) (i : Id) :
    t.get_node_mut i = mapLookup i t.node_map := by
  unfold NodeTree.get_node_mut
  cases mapLookup i t.node_map <;> rfl

theorem make_node_some (t : NodeTree) (pid : Id) (f : Id → Node → Node × Node)
    (parent : Node) (h : mapLookup pid t.node_map = some parent) :
    t.make_node pid f =
      (Except.ok t.id_generator.nextId,
       ⟨t.id_generator.next.2,
        mapInsert t.id_generator.nextId (f t.id_generator.nextId parent).2
          (mapInsert pid (f t.id_generator.nextId parent).1 t.node_map)⟩) := by
  unfold NodeTree.make_node
  rw [get_node_mut_eq, h]
  rfl

theorem make_node_none (t : NodeTree) (pid : Id) (f : Id → Node → Node × Node)
    (h : mapLookup pid t.node_map = none) :
    t.make_node pid f =
      (Except.error Error.NotFound, ⟨t.id_generator.next.2, t.node_map⟩) := by
  unfold NodeTree.make_node
  rw [get_node_mut_eq, h]

theorem make_node_fst_some (t : NodeTree) (pid : Id) (f : Id → Node → Node × Node)
    (parent : Node) (h : mapLookup pid t.node_map = some parent) :
    (t.make_node pid f).1 = Except.ok t.id_generator.nextId := by
  rw [make_node_some t pid f parent h]

theorem make_node_map_some (t : NodeTree) (pid : Id) (f : Id → Node → Node × Node)
    (parent : Node) (h : mapLookup pid t.node_map = some parent) :
    (t.make_node pid f).2.node_map
      = mapInsert t.id_generator.nextId (f t.id_generator.nextId parent).2
          (mapInsert pid (f t.id_generator.nextId parent).1 t.node_map) := by
  rw [make_node_some t pid f parent h]

theorem make_node_fst_none (t : NodeTree) (pid : Id) (f : Id → Node → Node × Node)
    (h : mapLookup pid t.node_map = none) :
    (t.make_node pid f).1 = Except.error Error.NotFound := by
  rw [make_node_none t pid f h]

theorem make_node_map_none (t : NodeTree) (pid : Id) (f : Id → Node → Node × Node)
    (h : mapLookup pid t.node_map = none) :
    (t.make_node pid f).2.node_map = t.node_map := by
  rw [make_node_none t pid f h]

theorem make_root_snd_gen (t : NodeTree) :
    (t.make_root).2.id_generator = t.id_generator.next.2 := rfl

theorem make_node_snd_gen (t : NodeTree) (pid : Id)
    (f : Id → Node → Node × Node) :
    (t.make_node pid f).2.id_generator = t.id_generator.next.2 := by
  cases h : mapLookup pid t.node_map
  · rw [make_node_none t pid f h]
  · rw [make_node_some t pid f _ h]

/-! ### Generator lemmas: values stay below `2 ^ 32` and wrap exactly there -/

theorem Id.val_mk (v : Nat) : (⟨v⟩ : Id).val = v := rfl

theorem genAfter_nextId (n : Nat) :
    ∀ g : IdGenerator, g.nextId.val < 2 ^ 32 →
      (genAfter g n).nextId = ⟨(g.nextId.val + n) % 2 ^ 32⟩ := by
  induction n with
  | zero =>
      intro g hg
      have h0 : (g.nextId.val + 0) % 2 ^ 32 = g.nextId.val := by omega
      show g.nextId = _
      rw [h0]
  | succ n ih =>
      intro g hg
      have hlt : (g.next.2).nextId.val < 2 ^ 32 := by
        show (g.nextId.val + 1) % 2 ^ 32 < 2 ^ 32
        omega
      have step : genAfter g (n + 1) = genAfter g.next.2 n := rfl
      rw [step, ih g.next.2 hlt]
      have hval : (g.next.2).nextId.val = (g.nextId.val + 1) % 2 ^ 32 := rfl
      rw [hval]
      congr 1
      omega

theorem run_gen (ops : List Op) :
    ∀ t : NodeTree, (run t ops).id_generator = genAfter t.id_generator ops.length := by
  induction ops with
  | nil => intro t; rfl
  | cons op rest ih =>
      intro t
      cases op with
      | makeRoot =>
          show (run (t.make_root).2 rest).id_generator = _
          rw [ih, make_root_snd_gen]
          rfl
      | makeNode pid f =>
          show (run (t.make_node pid f).2 rest).id_generator = _
          rw [ih, make_node_snd_gen]
          rfl

theorem returned_sublist (ops : List Op) :
    ∀ t : NodeTree,
      List.Sublist (returnedIds t ops) (genIdsFrom t.id_generator ops.length) := by
  induction ops with
  | nil => intro t; exact List.Sublist.refl _
  | cons op rest ih =>
      intro t
      cases op with
      | makeRoot =>
          show List.Sublist
            ((t.make_root).1 :: returnedIds (t.make_root).2 rest)
            (t.id_generator.next.1 :: genIdsFrom t.id_generator.next.2 rest.length)
          have h1 : (t.make_root).1 = t.id_generator.next.1 := rfl
          have h2 := ih (t.make_root).2
          rw [make_root_snd_gen] at h2
          rw [h1]
          exact List.Sublist.cons₂ _ h2
      | makeNode pid f =>
          have h2 := ih (t.make_node pid f).2
          rw [make_node_snd_gen] at h2
          cases h : mapLookup pid t.node_map with
          | none =>
              have hmk := make_node_none t pid f h
              unfold returnedIds
              rw [hmk] at h2 ⊢
              exact List.Sublist.cons _ h2
          | some parent =>
              have hmk := make_node_some t pid f parent h
              unfold returnedIds
              rw [hmk] at h2 ⊢
              exact List.Sublist.cons₂ _ h2

theorem genIdsFrom_mem (n : Nat) :
    ∀ v : Nat, v + n ≤ 2 ^ 32 → ∀ i ∈ genIdsFrom ⟨⟨v⟩⟩ n,
      v ≤ i.val ∧ i.val < v + n := by
  induction n with
  | zero => intro v _ i hi; cases hi
  | succ n ih =>
      intro v hv i hi
      have hstep : genIdsFrom ⟨⟨v⟩⟩ (n + 1)
          = (⟨v⟩ : Id) :: genIdsFrom ⟨⟨(v + 1) % 2 ^ 32⟩⟩ n := rfl
      rw [hstep] at hi
      rcases List.mem_cons.mp hi with rfl | hi2
      · refine ⟨Nat.le_refl _, ?_⟩
        rw [Id.val_mk]
        omega
      · rcases Nat.lt_or_ge (v + 1) (2 ^ 32) with hcase | hcase
        · have hmod : (v + 1) % 2 ^ 32 = v + 1 := Nat.mod_eq_of_lt hcase
          rw [hmod] at hi2
          have := ih (v + 1) (by omega) i hi2
          exact ⟨by omega, by omega⟩
        · have hn : n = 0 := by omega
          subst hn
          cases hi2

theorem genIdsFrom_nodup (n : Nat) :
    ∀ v : Nat, v + n ≤ 2 ^ 32 → (genIdsFrom ⟨⟨v⟩⟩ n).Nodup := by
  induction n with
  | zero => intro v _; exact List.nodup_nil
  | succ n ih =>
      intro v hv
      have hstep : genIdsFrom ⟨⟨v⟩⟩ (n + 1)
          = (⟨v⟩ : Id) :: genIdsFrom ⟨⟨(v + 1) % 2 ^ 32⟩⟩ n := rfl
      rw [hstep]
      rcases Nat.lt_or_ge (v + 1) (2 ^ 32) with hcase | hcase
      · have hmod : (v + 1) % 2 ^ 32 = v + 1 := Nat.mod_eq_of_lt hcase
        rw [hmod]
        refine List.nodup_cons.mpr ⟨?_, ih (v + 1) (by omega)⟩
        intro hmem
        have hb := genIdsFrom_mem n (v + 1) (by omega) _ hmem
        rw [Id.val_mk] at hb
        omega
      · have hn : n = 0 := by omega
        subst hn
        simp [genIdsFrom]

theorem fresh_not_returned (ops : List Op) (hlen : ops.length < 2 ^ 32) :
    (run NodeTree.new ops).id_generator.nextId ∉ returnedIds NodeTree.new ops := by
  intro hmem
  have hgen : (run NodeTree.new ops).id_generator.nextId
      = ⟨(0 + ops.length) % 2 ^ 32⟩ := by
    rw [run_gen]
    exact genAfter_nextId ops.length NodeTree.new.id_generator (by decide)
  have hval : (run NodeTree.new ops).id_generator.nextId.val = ops.length := by
    rw [hgen, Id.val_mk]
    omega
  have hsub := returned_sublist ops NodeTree.new
  have hmem2 : (run NodeTree.new ops).id_generator.nextId ∈
      genIdsFrom ⟨⟨0⟩⟩ ops.length := hsub.subset hmem
  have hb := genIdsFrom_mem ops.length 0 (by omega) _ hmem2
  omega

/-! ### Running a block of failed calls: the counter advances, nothing else -/

theorem run_replicate_fail (pid : Id) (M : List (Id × Node))
    (hM : mapLookup pid M = none) :
    ∀ n v, v < 2 ^ 32 →
      run ⟨⟨⟨v⟩⟩, M⟩ (List.replicate n (Op.makeNode pid dummyFactory))
        = ⟨⟨⟨(v + n) % 2 ^ 32⟩⟩, M⟩
    ∧ returnedIds ⟨⟨⟨v⟩⟩, M⟩ (List.replicate n (Op.makeNode pid dummyFactory))
        = [] := by
  intro n
  induction n with
  | zero =>
      intro v hv
      constructor
      · show (⟨⟨⟨v⟩⟩, M⟩ : NodeTree) = _
        have h0 : (v + 0) % 2 ^ 32 = v := by omega
        rw [h0]
      · rfl
  | succ n ih =>
      intro v hv
      have hstep : NodeTree.make_node ⟨⟨⟨v⟩⟩, M⟩ pid dummyFactory
          = (Except.error Error.NotFound, ⟨⟨⟨(v + 1) % 2 ^ 32⟩⟩, M⟩) :=
        make_node_none _ pid dummyFactory hM
      have hrep : List.replicate (n + 1) (Op.makeNode pid dummyFactory)
          = Op.makeNode pid dummyFactory
            :: List.replicate n (Op.makeNode pid dummyFactory) := rfl
      have hv2 : (v + 1) % 2 ^ 32 < 2 ^ 32 := by omega
      obtain ⟨ih1, ih2⟩ := ih ((v + 1) % 2 ^ 32) hv2
      have harith : ((v + 1) % 2 ^ 32 + n) % 2 ^ 32 = (v + (n + 1)) % 2 ^ 32 := by
        omega
      constructor
      · rw [hrep]
        show run (NodeTree.make_node ⟨⟨⟨v⟩⟩, M⟩ pid dummyFactory).2
          (List.replicate n (Op.makeNode pid dummyFactory)) = _
        rw [hstep]
        show run (⟨⟨⟨(v + 1) % 2 ^ 32⟩⟩, M⟩ : NodeTree)
          (List.replicate n (Op.makeNode pid dummyFactory)) = _
        rw [ih1, harith]
      · rw [hrep]
        unfold returnedIds
        rw [hstep]
        exact ih2

theorem run_cons_makeRoot (t : NodeTree) (rest : List Op) :
    run t (Op.makeRoot :: rest) = run (t.make_root).2 rest := rfl

theorem returnedIds_cons_makeRoot (t : NodeTree) (rest : List Op) :
    returnedIds t (Op.makeRoot :: rest)
      = (t.make_root).1 :: returnedIds (t.make_root).2 rest := rfl

/-- The arena after `badTrace`: the counter has wrapped back to zero and the
map still holds only the root. -/
theorem run_badTrace :
    run NodeTree.new badTrace = ⟨⟨⟨0⟩⟩, [(⟨0⟩, rootNode0)]⟩
  ∧ returnedIds NodeTree.new badTrace = [⟨0⟩] := by
  have hM : mapLookup (⟨1⟩ : Id) [((⟨0⟩ : Id), rootNode0)] = none := by decide
  obtain ⟨h1, h2⟩ := run_replicate_fail (⟨1⟩ : Id) [((⟨0⟩ : Id), rootNode0)] hM
    (2 ^ 32 - 1) 1 (by norm_num)
  have harith : (1 + (2 ^ 32 - 1)) % 2 ^ 32 = 0 := by omega
  have hbad : badTrace
      = Op.makeRoot :: List.replicate (2 ^ 32 - 1) (Op.makeNode ⟨1⟩ dummyFactory) := rfl
  have hrootFst : (NodeTree.new.make_root).1 = (⟨0⟩ : Id) := rfl
  have hrootSnd : (NodeTree.new.make_root).2
      = (⟨⟨⟨1⟩⟩, [((⟨0⟩ : Id), rootNode0)]⟩ : NodeTree) := rfl
  constructor
  · rw [hbad, run_cons_makeRoot, hrootSnd, h1, harith]
  · rw [hbad, returnedIds_cons_makeRoot, hrootFst, hrootSnd, h2]

theorem run_append (l1 : List Op) :
    ∀ (t : NodeTree) (l2 : List Op), run t (l1 ++ l2) = run (run t l1) l2 := by
  induction l1 with
  | nil => intro t l2; rfl
  | cons op rest ih =>
      intro t l2
      cases op with
      | makeRoot => exact ih (t.make_root).2 l2
      | makeNode pid f => exact ih (t.make_node pid f).2 l2

/-! ### Referential integrity under conforming factories -/

theorem mapLookup_pres (r k : Id) (v : Node) (M : List (Id × Node))
    (h : ∃ m, mapLookup r M = some m) :
    ∃ m, mapLookup r (mapInsert k v M) = some m := by
  obtain ⟨m, hm⟩ := h
  by_cases hk : k = r
  · subst hk
    exact ⟨v, mapLookup_insert_self k v M⟩
  · rw [mapLookup_insert_ne k r v M hk]
    exact ⟨m, hm⟩

theorem make_root_inv (t : NodeTree) (h : Inv t) : Inv (t.make_root).2 := by
  intro k n hk r hr
  have hmap : (t.make_root).2.node_map
      = mapInsert t.id_generator.nextId
          (Node.ChildrenNode (ChildrenNode.new t.id_generator.nextId t.id_generator.nextId))
          t.node_map := rfl
  rw [hmap] at hk ⊢
  by_cases hkk : t.id_generator.nextId = k
  · subst hkk
    rw [mapLookup_insert_self] at hk
    cases hk
    have hroot : refIds (Node.ChildrenNode
        (ChildrenNode.new t.id_generator.nextId t.id_generator.nextId))
        = [t.id_generator.nextId] := rfl
    rw [hroot] at hr
    rcases List.mem_singleton.mp hr with rfl
    exact ⟨_, mapLookup_insert_self _ _ _⟩
  · rw [mapLookup_insert_ne _ _ _ _ hkk] at hk
    exact mapLookup_pres _ _ _ _ (h k n hk r hr)

theorem make_node_inv (t : NodeTree) (pid : Id) (f : Id → Node → Node × Node)
    (hinv : Inv t) (hf : FactoryConf pid f) : Inv (t.make_node pid f).2 := by
  cases h : mapLookup pid t.node_map with
  | none =>
      rw [make_node_none t pid f h]
      intro k n hk r hr
      exact hinv k n hk r hr
  | some parent =>
      rw [make_node_some t pid f parent h]
      intro k n hk r hr
      have hpres : ∀ s : Id,
          (s ∈ refIds parent ∨ s = t.id_generator.nextId ∨ s = pid) →
          ∃ m, mapLookup s
            (mapInsert t.id_generator.nextId (f t.id_generator.nextId parent).2
              (mapInsert pid (f t.id_generator.nextId parent).1 t.node_map))
            = some m := by
        intro s hs
        rcases hs with hs | hs | hs
        · exact mapLookup_pres _ _ _ _ (mapLookup_pres _ _ _ _ (hinv pid parent h s hs))
        · subst hs
          exact ⟨_, mapLookup_insert_self _ _ _⟩
        · subst hs
          by_cases hfp : t.id_generator.nextId = s
          · subst hfp
            exact ⟨_, mapLookup_insert_self _ _ _⟩
          · rw [mapLookup_insert_ne _ _ _ _ hfp]
            exact ⟨_, mapLookup_insert_self _ _ _⟩
      by_cases hk1 : t.id_generator.nextId = k
      · subst hk1
        rw [mapLookup_insert_self] at hk
        cases hk
        exact hpres r (hf t.id_generator.nextId parent r (Or.inr hr))
      · rw [mapLookup_insert_ne _ _ _ _ hk1] at hk
        by_cases hk2 : pid = k
        · subst hk2
          rw [mapLookup_insert_self] at hk
          cases hk
          exact hpres r (hf t.id_generator.nextId parent r (Or.inl hr))
        · rw [mapLookup_insert_ne _ _ _ _ hk2] at hk
          exact mapLookup_pres _ _ _ _ (mapLookup_pres _ _ _ _ (hinv k n hk r hr))

theorem run_inv (ops : List Op) :
    ∀ t : NodeTree, Inv t → (∀ op ∈ ops, OpConf op) → Inv (run t ops) := by
  induction ops with
  | nil => intro t h _; exact h
  | cons op rest ih =>
      intro t h hconf
      cases op with
      | makeRoot =>
          exact ih (t.make_root).2 (make_root_inv t h)
            (fun op hop => hconf op (List.mem_cons_of_mem _ hop))
      | makeNode pid f =>
          have hc : FactoryConf pid f := hconf _ (List.mem_cons_self _ _)
          exact ih (t.make_node pid f).2 (make_node_inv t pid f h hc)
            (fun op hop => hconf op (List.mem_cons_of_mem _ hop))

theorem inv_new : Inv NodeTree.new := by
  intro k n hk
  cases hk

/-! ### Claim theorems -/

/-- Claim C4: `make_root` always succeeds (its return type carries no error):
for every arena state it returns the freshly drawn identifier and afterwards
`get_node` on that identifier yields a Children-node whose `id` and `parent`
fields both equal the identifier and whose `children` sequence is empty. -/
theorem make_root_inserts_self_parent_children_node (t : NodeTree) :
    (t.make_root).1 = t.id_generator.nextId
  ∧ (t.make_root).2.get_node (t.make_root).1
      = some (Node.ChildrenNode (ChildrenNode.new t.id_generator.nextId t.id_generator.nextId))
  ∧ (ChildrenNode.new t.id_generator.nextId t.id_generator.nextId).id = t.id_generator.nextId
  ∧ (ChildrenNode.new t.id_generator.nextId t.id_generator.nextId).parent = t.id_generator.nextId
  ∧ (ChildrenNode.new t.id_generator.nextId t.id_generator.nextId).children = [] := by
  refine ⟨rfl, ?_, rfl, rfl, rfl⟩
  rw [get_node_eq]
  exact mapLookup_insert_self _ _ _

/-- Claim C6: the variant accessors `get_inner` and `get_inner_mut` return
the payload exactly when the node is the requested variant, and `none` on
the other variant. -/
theorem get_inner_variant_access (c : ChildrenNode) (l : LeftRightNode) :
    Node.get_inner NodeVariant.childrenV (Node.ChildrenNode c) = some c
  ∧ Node.get_inner NodeVariant.childrenV (Node.LeftRightNode l) = none
  ∧ Node.get_inner NodeVariant.leftRightV (Node.LeftRightNode l) = some l
  ∧ Node.get_inner NodeVariant.leftRightV (Node.ChildrenNode c) = none
  ∧ Node.get_inner_mut NodeVariant.childrenV (Node.ChildrenNode c) = some c
  ∧ Node.get_inner_mut NodeVariant.childrenV (Node.LeftRightNode l) = none
  ∧ Node.get_inner_mut NodeVariant.leftRightV (Node.LeftRightNode l) = some l
  ∧ Node.get_inner_mut NodeVariant.leftRightV (Node.ChildrenNode c) = none :=
  ⟨rfl, rfl, rfl, rfl, rfl, rfl, rfl, rfl⟩

/-- Claim C7: `make_node` either succeeds or fails with `NotFound`; no public
operation ever produces `Error.Unknown` (`make_root`, `get_node` and
`get_node_mut` cannot fail at all, as their return types show). -/
theorem make_node_error_only_notfound (t : NodeTree) (pid : Id)
    (f : Id → Node → Node × Node) :
    (t.make_node pid f).1 = Except.ok t.id_generator.nextId
  ∨ (t.make_node pid f).1 = Except.error Error.NotFound := by
  cases h : mapLookup pid t.node_map with
  | none =>
      right
      exact make_node_fst_none t pid f h
  | some parent =>
      left
      exact make_node_fst_some t pid f parent h

/-- Claim C9: the arena stores the factory's node without checking its
contents: a factory returning a node whose own `id` field is `42` still gets
stored under the fresh identifier `1`, so the stored node's `id` field
differs from its map key. -/
theorem make_node_does_not_validate_node_id :
    ((run NodeTree.new [Op.makeRoot]).make_node (⟨0⟩ : Id) badIdFactory).1
        = Except.ok (⟨1⟩ : Id)
  ∧ ((run NodeTree.new [Op.makeRoot]).make_node (⟨0⟩ : Id) badIdFactory).2.get_node
        (⟨1⟩ : Id)
        = some (Node.ChildrenNode ⟨⟨42⟩, ⟨0⟩, []⟩)
  ∧ (⟨42⟩ : Id) ≠ (⟨1⟩ : Id) :=
  ⟨rfl, rfl, by decide⟩

/-- Claim C10: a successful `make_node` changes at most the entry at
`parent_id` and the entry at the fresh identifier; every other key reads the
same node value before and after the call. -/
theorem make_node_frame_other_keys_unchanged (t : NodeTree) (pid k : Id)
    (f : Id → Node → Node × Node) (parent : Node)
    (hp : t.get_node pid = some parent)
    (hk1 : k ≠ pid) (hk2 : k ≠ t.id_generator.nextId) :
    (t.make_node pid f).1 = Except.ok t.id_generator.nextId
  ∧ (t.make_node pid f).2.get_node t.id_generator.nextId
      = some (f t.id_generator.nextId parent).2
  ∧ (t.make_node pid f).2.get_node k = t.get_node k := by
  rw [get_node_eq] at hp
  refine ⟨make_node_fst_some t pid f parent hp, ?_, ?_⟩
  · rw [get_node_eq, make_node_map_some t pid f parent hp]
    exact mapLookup_insert_self _ _ _
  · rw [get_node_eq, get_node_eq, make_node_map_some t pid f parent hp,
      mapLookup_insert_ne _ _ _ _ (Ne.symm hk2), mapLookup_insert_ne _ _ _ _ (Ne.symm hk1)]

/-- Witness for C10 at a concrete two-node arena: the entry at key `1` is
untouched by a successful `make_node` under parent `0`. -/
theorem make_node_frame_other_keys_unchanged_witness :
    sampleTree.get_node (⟨0⟩ : Id) = some rootNode0
  ∧ (⟨1⟩ : Id) ≠ (⟨0⟩ : Id)
  ∧ (⟨1⟩ : Id) ≠ sampleTree.id_generator.nextId
  ∧ ((sampleTree.make_node (⟨0⟩ : Id) apFactory).1
        = Except.ok sampleTree.id_generator.nextId
    ∧ (sampleTree.make_node (⟨0⟩ : Id) apFactory).2.get_node
          sampleTree.id_generator.nextId
        = some (apFactory sampleTree.id_generator.nextId rootNode0).2
    ∧ (sampleTree.make_node (⟨0⟩ : Id) apFactory).2.get_node (⟨1⟩ : Id)
        = sampleTree.get_node (⟨1⟩ : Id)) :=
  ⟨by decide, by decide, by decide,
    make_node_frame_other_keys_unchanged sampleTree (⟨0⟩ : Id) (⟨1⟩ : Id)
      apFactory rootNode0 (by decide) (by decide) (by decide)⟩

/-- Claim C1 (amended): along any trace of fewer than `2 ^ 32` operations
from a fresh arena, a `make_node` on a present parent returns `Ok` with a
fresh identifier different from every previously returned one, and
`get_node` on that identifier afterwards yields exactly the node the factory
constructed. The bound is forced by the `u32` counter: once `2 ^ 32`
identifiers have been consumed the counter has wrapped and the freshness
part fails (see the counterexample). -/
theorem make_node_fresh_id_and_stores_factory_node (ops : List Op) (pid : Id)
    (f : Id → Node → Node × Node) (parent : Node)
    (hlen : ops.length < 2 ^ 32)
    (hp : (run NodeTree.new ops).get_node pid = some parent) :
    ((run NodeTree.new ops).make_node pid f).1
        = Except.ok (run NodeTree.new ops).id_generator.nextId
  ∧ (run NodeTree.new ops).id_generator.nextId ∉ returnedIds NodeTree.new ops
  ∧ ((run NodeTree.new ops).make_node pid f).2.get_node
        (run NodeTree.new ops).id_generator.nextId
      = some (f (run NodeTree.new ops).id_generator.nextId parent).2 := by
  rw [get_node_eq] at hp
  refine ⟨make_node_fst_some _ pid f parent hp, fresh_not_returned ops hlen, ?_⟩
  rw [get_node_eq, make_node_map_some _ pid f parent hp]
  exact mapLookup_insert_self _ _ _

/-- Witness for the amended C1 at the one-operation trace `[makeRoot]`. -/
theorem make_node_fresh_id_and_stores_factory_node_witness :
    ([Op.makeRoot] : List Op).length < 2 ^ 32
  ∧ (run NodeTree.new [Op.makeRoot]).get_node (⟨0⟩ : Id) = some rootNode0
  ∧ (((run NodeTree.new [Op.makeRoot]).make_node (⟨0⟩ : Id) apFactory).1
        = Except.ok (run NodeTree.new [Op.makeRoot]).id_generator.nextId
    ∧ (run NodeTree.new [Op.makeRoot]).id_generator.nextId
        ∉ returnedIds NodeTree.new [Op.makeRoot]
    ∧ ((run NodeTree.new [Op.makeRoot]).make_node (⟨0⟩ : Id) apFactory).2.get_node
          (run NodeTree.new [Op.makeRoot]).id_generator.nextId
        = some (apFactory (run NodeTree.new [Op.makeRoot]).id_generator.nextId rootNode0).2) :=
  ⟨by decide, by decide,
    make_node_fresh_id_and_stores_factory_node [Op.makeRoot] (⟨0⟩ : Id) apFactory
      rootNode0 (by decide) (by decide)⟩

/-- Claim C1 counterexample: after `badTrace` (one root plus `2 ^ 32 - 1`
failed calls) the parent `0` is still present, yet the next successful
`make_node` returns identifier `0`, which was already returned by
`make_root` earlier on the same arena. -/
theorem make_node_wrap_reissues_previous_id :
    (run NodeTree.new badTrace).get_node (⟨0⟩ : Id) ≠ none
  ∧ ((run NodeTree.new badTrace).make_node (⟨0⟩ : Id) dummyFactory).1
      = Except.ok (⟨0⟩ : Id)
  ∧ (⟨0⟩ : Id) ∈ returnedIds NodeTree.new badTrace := by
  obtain ⟨h1, h2⟩ := run_badTrace
  refine ⟨?_, ?_, ?_⟩
  · rw [h1]
    decide
  · rw [h1]
    rfl
  · rw [h2]
    decide

/-- Claim C2 (amended): along any trace of at most `2 ^ 32` public
operations from a fresh arena, all identifiers ever returned are pairwise
distinct. Equivalently the authority's first `2 ^ 32` draws are distinct;
the `u32` counter then wraps, so draw number `2 ^ 32` repeats draw `0`
(see the counterexample). -/
theorem returned_ids_nodup_up_to_u32 (ops : List Op)
    (hlen : ops.length ≤ 2 ^ 32) :
    (returnedIds NodeTree.new ops).Nodup := by
  have hsub := returned_sublist ops NodeTree.new
  have hnodup : (genIdsFrom ⟨⟨0⟩⟩ ops.length).Nodup :=
    genIdsFrom_nodup ops.length 0 (by omega)
  exact List.Nodup.sublist hsub hnodup

/-- Witness for the amended C2 at a concrete two-operation trace. -/
theorem returned_ids_nodup_up_to_u32_witness :
    ([Op.makeRoot, Op.makeNode (⟨0⟩ : Id) goodFactory] : List Op).length ≤ 2 ^ 32
  ∧ (returnedIds NodeTree.new [Op.makeRoot, Op.makeNode (⟨0⟩ : Id) goodFactory]).Nodup :=
  ⟨by decide, returned_ids_nodup_up_to_u32 _ (by decide)⟩

/-- Claim C2 counterexample: `next()` draw number `2 ^ 32` on one
`IdGenerator` instance returns the same identifier as draw number `0`,
because the `u32` counter wraps. -/
theorem idGenerator_wraps_after_u32_calls :
    (genAfter IdGenerator.new (2 ^ 32)).next.1 = (genAfter IdGenerator.new 0).next.1
  ∧ (2 ^ 32 : Nat) ≠ 0 := by
  constructor
  · have h := genAfter_nextId (2 ^ 32) IdGenerator.new (by decide)
    have h2 : (IdGenerator.new.nextId.val + 2 ^ 32) % 2 ^ 32 = 0 := by
      have : IdGenerator.new.nextId.val = 0 := rfl
      rw [this]
      omega
    have h3 : ∀ g : IdGenerator, g.next.1 = g.nextId := fun _ => rfl
    rw [h3, h3, h, h2]
    rfl
  · decide

/-- Claim C3 (amended): `make_node` on an absent parent returns `NotFound`,
leaves the node map unchanged, and its result does not depend on the factory
(the factory is never invoked); the failed call still consumes one
identifier, and — provided fewer than `2 ^ 32` identifiers have been
consumed in total — the identifier returned by a subsequent successful call
differs from every identifier returned before. The bound is forced by the
`u32` counter wrap (see the counterexample). -/
theorem make_node_notfound_leaves_map_unchanged (ops : List Op) (pid pid2 : Id)
    (f f2 f3 : Id → Node → Node × Node) (parent : Node)
    (hp : (run NodeTree.new ops).get_node pid = none)
    (hlen : ops.length + 1 < 2 ^ 32)
    (hp2 : (run NodeTree.new (ops ++ [Op.makeNode pid f])).get_node pid2
        = some parent) :
    ((run NodeTree.new ops).make_node pid f).1 = Except.error Error.NotFound
  ∧ ((run NodeTree.new ops).make_node pid f).2.node_map
      = (run NodeTree.new ops).node_map
  ∧ ((run NodeTree.new ops).make_node pid f).2.id_generator
      = (run NodeTree.new ops).id_generator.next.2
  ∧ (run NodeTree.new ops).make_node pid f = (run NodeTree.new ops).make_node pid f2
  ∧ ((run NodeTree.new (ops ++ [Op.makeNode pid f])).make_node pid2 f3).1
      = Except.ok (run NodeTree.new (ops ++ [Op.makeNode pid f])).id_generator.nextId
  ∧ (run NodeTree.new (ops ++ [Op.makeNode pid f])).id_generator.nextId
      ∉ returnedIds NodeTree.new (ops ++ [Op.makeNode pid f]) := by
  rw [get_node_eq] at hp hp2
  refine ⟨make_node_fst_none _ pid f hp, make_node_map_none _ pid f hp,
    make_node_snd_gen _ pid f, ?_, make_node_fst_some _ pid2 f3 parent hp2, ?_⟩
  · rw [make_node_none _ pid f hp, make_node_none _ pid f2 hp]
  · refine fresh_not_returned (ops ++ [Op.makeNode pid f]) ?_
    have hl : (ops ++ [Op.makeNode pid f]).length = ops.length + 1 := by
      simp
    rw [hl]
    exact hlen

/-- Witness for the amended C3: a failed call under the absent parent `5`
right after `make_root`, followed by a successful call under the root. -/
theorem make_node_notfound_leaves_map_unchanged_witness :
    (run NodeTree.new [Op.makeRoot]).get_node (⟨5⟩ : Id) = none
  ∧ ([Op.makeRoot] : List Op).length + 1 < 2 ^ 32
  ∧ (run NodeTree.new ([Op.makeRoot] ++ [Op.makeNode (⟨5⟩ : Id) dummyFactory])).get_node
        (⟨0⟩ : Id) = some rootNode0
  ∧ (((run NodeTree.new [Op.makeRoot]).make_node (⟨5⟩ : Id) dummyFactory).1
        = Except.error Error.NotFound
    ∧ ((run NodeTree.new [Op.makeRoot]).make_node (⟨5⟩ : Id) dummyFactory).2.node_map
        = (run NodeTree.new [Op.makeRoot]).node_map
    ∧ ((run NodeTree.new [Op.makeRoot]).make_node (⟨5⟩ : Id) dummyFactory).2.id_generator
        = (run NodeTree.new [Op.makeRoot]).id_generator.next.2
    ∧ (run NodeTree.new [Op.makeRoot]).make_node (⟨5⟩ : Id) dummyFactory
        = (run NodeTree.new [Op.makeRoot]).make_node (⟨5⟩ : Id) goodFactory
    ∧ ((run NodeTree.new ([Op.makeRoot] ++ [Op.makeNode (⟨5⟩ : Id) dummyFactory])).make_node
          (⟨0⟩ : Id) apFactory).1
        = Except.ok (run NodeTree.new
            ([Op.makeRoot] ++ [Op.makeNode (⟨5⟩ : Id) dummyFactory])).id_generator.nextId
    ∧ (run NodeTree.new
          ([Op.makeRoot] ++ [Op.makeNode (⟨5⟩ : Id) dummyFactory])).id_generator.nextId
        ∉ returnedIds NodeTree.new ([Op.makeRoot] ++ [Op.makeNode (⟨5⟩ : Id) dummyFactory])) :=
  ⟨by decide, by decide, by decide,
    make_node_notfound_leaves_map_unchanged [Op.makeRoot] (⟨5⟩ : Id) (⟨0⟩ : Id)
      dummyFactory goodFactory apFactory rootNode0 (by decide) (by decide) (by decide)⟩

/-- Claim C3 counterexample: along `badTrace` every `make_node` fails and
inserts nothing (the map still equals the map right after `make_root`), yet
the identifiers those failed calls consumed wrap the counter, and the next
successful call returns identifier `0` — equal to the previously issued root
identifier, refuting the unbounded no-reuse clause. -/
theorem failed_calls_wrap_reissue_consumed_id :
    returnedIds NodeTree.new badTrace = [(⟨0⟩ : Id)]
  ∧ (run NodeTree.new badTrace).node_map = (NodeTree.new.make_root).2.node_map
  ∧ ((run NodeTree.new badTrace).make_node (⟨0⟩ : Id) goodFactory).1
      = Except.ok (⟨0⟩ : Id) := by
  obtain ⟨h1, h2⟩ := run_badTrace
  refine ⟨h2, ?_, ?_⟩
  · rw [h1]
    rfl
  · rw [h1]
    rfl

/-- Claim C5 (amended): if the parent is a Children-node and the factory's
update of the parent is exactly the append of the fresh identifier to its
`children`, then — provided the fresh identifier differs from `parent_id`,
which holds whenever fewer than `2 ^ 32` identifiers have been consumed —
after the call the node at `parent_id` has the fresh identifier at the end
of its `children` and its `id` and `parent` fields unchanged. The proviso is
forced by the counter wrap: when the fresh identifier equals `parent_id` the
new node overwrites the parent entry (see the counterexample). -/
theorem appending_factory_updates_parent_children (t : NodeTree) (pid : Id)
    (c : ChildrenNode) (f : Id → Node → Node × Node)
    (hp : t.get_node pid = some (Node.ChildrenNode c))
    (hf : (f t.id_generator.nextId (Node.ChildrenNode c)).1
        = Node.ChildrenNode ⟨c.id, c.parent, c.children ++ [t.id_generator.nextId]⟩)
    (hne : t.id_generator.nextId ≠ pid) :
    (t.make_node pid f).2.get_node pid
      = some (Node.ChildrenNode ⟨c.id, c.parent, c.children ++ [t.id_generator.nextId]⟩) := by
  rw [get_node_eq] at hp
  rw [get_node_eq, make_node_map_some t pid f (Node.ChildrenNode c) hp,
    mapLookup_insert_ne _ _ _ _ hne, mapLookup_insert_self, hf]

/-- Witness for the amended C5: appending under the root of a one-node
arena. -/
theorem appending_factory_updates_parent_children_witness :
    rootTree.get_node (⟨0⟩ : Id) = some (Node.ChildrenNode ⟨⟨0⟩, ⟨0⟩, []⟩)
  ∧ (apFactory rootTree.id_generator.nextId (Node.ChildrenNode ⟨⟨0⟩, ⟨0⟩, []⟩)).1
      = Node.ChildrenNode ⟨⟨0⟩, ⟨0⟩, [] ++ [rootTree.id_generator.nextId]⟩
  ∧ rootTree.id_generator.nextId ≠ (⟨0⟩ : Id)
  ∧ (rootTree.make_node (⟨0⟩ : Id) apFactory).2.get_node (⟨0⟩ : Id)
      = some (Node.ChildrenNode ⟨⟨0⟩, ⟨0⟩, [] ++ [rootTree.id_generator.nextId]⟩) :=
  ⟨by decide, by decide, by decide,
    appending_factory_updates_parent_children rootTree (⟨0⟩ : Id) ⟨⟨0⟩, ⟨0⟩, []⟩
      apFactory (by decide) (by decide) (by decide)⟩

/-- Claim C5 counterexample: in the wrapped arena reached by `badTrace` the
fresh identifier equals `parent_id` `0`; the appending factory does run, but
the new node is then stored under the same key and overwrites the parent, so
afterwards the entry at `parent_id` is the new Left-right-node — not the
parent with the fresh identifier appended to its `children`. -/
theorem wrap_overwrites_parent_after_append :
    (run NodeTree.new badTrace).get_node (⟨0⟩ : Id)
        = some (Node.ChildrenNode ⟨⟨0⟩, ⟨0⟩, []⟩)
  ∧ ((run NodeTree.new badTrace).make_node (⟨0⟩ : Id) apFactory).1
        = Except.ok (⟨0⟩ : Id)
  ∧ ((run NodeTree.new badTrace).make_node (⟨0⟩ : Id) apFactory).2.get_node (⟨0⟩ : Id)
        = some (Node.LeftRightNode ⟨⟨0⟩, ⟨0⟩, none, none⟩) := by
  obtain ⟨h1, _⟩ := run_badTrace
  refine ⟨?_, ?_, ?_⟩ <;> rw [h1] <;> rfl

/-- Claim C8 (amended): along any trace whose factories conform to the
construction convention — every identifier they store is one the parent
already referenced, the fresh identifier, or the parent's identifier — every
identifier appearing as a `parent`, `left`, `right` or `children` member
refers to a node present in the arena. For arbitrary factories the claim
fails: nothing stops a factory from storing dangling identifiers (see the
counterexample). -/
theorem conforming_traces_preserve_ref_integrity (ops : List Op)
    (hconf : ∀ op ∈ ops, OpConf op) : Inv (run NodeTree.new ops) :=
  run_inv ops NodeTree.new inv_new hconf

/-- Witness for the amended C8 at a concrete conforming two-operation
trace. -/
theorem conforming_traces_preserve_ref_integrity_witness :
    (∀ op ∈ ([Op.makeRoot, Op.makeNode (⟨0⟩ : Id) goodFactory] : List Op), OpConf op)
  ∧ Inv (run NodeTree.new [Op.makeRoot, Op.makeNode (⟨0⟩ : Id) goodFactory]) := by
  have hconf : ∀ op ∈ ([Op.makeRoot, Op.makeNode (⟨0⟩ : Id) goodFactory] : List Op),
      OpConf op := by
    intro op hop
    rcases List.mem_cons.mp hop with rfl | hop2
    · exact trivial
    rcases List.mem_cons.mp hop2 with rfl | hop3
    · intro i p r hr
      rcases hr with hr | hr
      · exact Or.inl hr
      · have hr2 : r = i := by
          simpa [goodFactory, refIds, ChildrenNode.new] using hr
        exact Or.inr (Or.inl hr2)
    · cases hop3
  exact ⟨hconf, conforming_traces_preserve_ref_integrity _ hconf⟩

/-- Claim C8 counterexample: a factory may store identifiers never present
in the arena. After one such call the stored node references `999`, which is
absent, so the referential-integrity invariant fails for arbitrary
factories. -/
theorem arbitrary_factory_breaks_ref_integrity :
    (run NodeTree.new [Op.makeRoot, Op.makeNode (⟨0⟩ : Id) danglingFactory]).get_node
        (⟨1⟩ : Id)
        = some (Node.LeftRightNode ⟨⟨1⟩, ⟨999⟩, some ⟨777⟩, none⟩)
  ∧ (⟨999⟩ : Id) ∈ refIds (Node.LeftRightNode ⟨⟨1⟩, ⟨999⟩, some ⟨777⟩, none⟩)
  ∧ (run NodeTree.new [Op.makeRoot, Op.makeNode (⟨0⟩ : Id) danglingFactory]).get_node
        (⟨999⟩ : Id) = none
  ∧ ¬ Inv (run NodeTree.new [Op.makeRoot, Op.makeNode (⟨0⟩ : Id) danglingFactory]) := by
  refine ⟨by decide, by decide, by decide, ?_⟩
  intro h
  have hlook : mapLookup (⟨1⟩ : Id)
      (run NodeTree.new [Op.makeRoot, Op.makeNode (⟨0⟩ : Id) danglingFactory]).node_map
      = some (Node.LeftRightNode ⟨⟨1⟩, ⟨999⟩, some ⟨777⟩, none⟩) := by decide
  have hmem : (⟨999⟩ : Id) ∈ refIds (Node.LeftRightNode ⟨⟨1⟩, ⟨999⟩, some ⟨777⟩, none⟩) := by
    decide
  obtain ⟨m, hm⟩ := h _ _ hlook _ hmem
  have hnone : mapLookup (⟨999⟩ : Id)
      (run NodeTree.new [Op.makeRoot, Op.makeNode (⟨0⟩ : Id) danglingFactory]).node_map
      = none := by decide
  rw [hnone] at hm
  cases hm

end tree
